import Mathlib

/-!
# tomox-sdk: price-board subscription dispatcher and deposit records

Shallow embedding of `endpoints/price_board.go`
(`PriceBoardEndpoint.handlePriceBoardWebSocket`) and of `types/deposit.go`
(`NewChain`, `Chain.Scan`, `AddressAssociationFeed.GetJSON`,
`AssociationTransaction.ComputeHash`).

The handler is a pure decision procedure wrapped around four collaborators:
`encoding/json`, the logger, the price-board socket (`SendErrorMessage`) and
the `PriceBoardService` interface.  It is embedded as a function that returns
the ordered list of effects one invocation performs.

The methods of `types/deposit.go` have pointer receivers; each is embedded as a
function that returns the receiver as the call leaves it together with the results.
-/

namespace PriceBoard

/-! ## JSON values and the dynamic input -/

/-- Generic JSON document.  Objects keep their members in textual order, duplicates
included; a number is given by its integer value (fractions are not represented): the
decoders below inspect its kind and whether it fits a `float64`. -/
inductive JSON where
  | null
  | bool (b : Bool)
  | num (n : Int)
  | str (s : String)
  | arr (items : List JSON)
  | obj (members : List (String × JSON))

/-- Whether `strconv.ParseFloat` converts the number without a range error: its size is
below `2 ^ 1024 - 2 ^ 970`, the midpoint between the largest `float64` and `2 ^ 1024`,
written here as `(2 ^ 54 - 1) * 2 ^ 970`. -/
def fitsFloat64 (n : Int) : Bool :=
  decide (n.natAbs < (2 ^ 54 - 1) <<< 970)

mutual
/-- Whether a document decodes into an `interface{}` without error: every number in it,
at any depth, fits a `float64`. -/
def JSON.numbersFit : JSON → Bool
  | .num n => fitsFloat64 n
  | .arr items => itemsFit items
  | .obj members => membersFit members
  | _ => true
/-- Elements of an array, each decoding into an `interface{}` without error. -/
def itemsFit : List JSON → Bool
  | [] => true
  | j :: rest => j.numbersFit && itemsFit rest
/-- Members of an object, each value decoding into an `interface{}` without error. -/
def membersFit : List (String × JSON) → Bool
  | [] => true
  | (_, j) :: rest => j.numbersFit && membersFit rest
end

/-- Dynamic argument `input interface{}` of the handler: the nil interface, a non-nil
value together with the document `json.Marshal` renders it to, or a non-nil value
`json.Marshal` rejects (a channel, a function, ...). -/
inductive GoValue where
  | nil
  | encodes (j : JSON)
  | unencodable

/-- Errors of `json.Unmarshal`, as far as the handler can tell them apart (it only
logs them). -/
inductive DecodeError where
  | unexpectedEnd
  | typeMismatch (target : String)
  | badHex (target : String)
  deriving DecidableEq, Repr

/-- Result of `b, _ := json.Marshal(input)`: the rendered document, or no bytes at all
when marshalling failed and the error was discarded. -/
def jsonMarshal : GoValue → Option JSON
  | .nil => some .null
  | .encodes j => some j
  | .unencodable => none

/-! ## Addresses (`common.Address`, a 20-byte array) -/

/-- Twenty bytes, as `common.Address`. -/
def Address : Type := { bs : List (Fin 256) // bs.length = 20 }

instance : DecidableEq Address := by
  unfold Address
  infer_instance

/-- Zero value `common.Address{}`. -/
def Address.zero : Address := ⟨List.replicate 20 0, by simp⟩

/-- One hexadecimal digit, either case. -/
def decodeNibble (ch : Char) : Option Nat :=
  if '0' ≤ ch ∧ ch ≤ '9' then some (ch.toNat - 48)
  else if 'A' ≤ ch ∧ ch ≤ 'F' then some (ch.toNat - 55)
  else if 'a' ≤ ch ∧ ch ≤ 'f' then some (ch.toNat - 87)
  else none

/-- Pairs of hexadecimal digits to bytes; fails on an odd count or a non-digit. -/
def decodeHexPairs : List Char → Option (List (Fin 256))
  | [] => some []
  | [_] => none
  | hi :: lo :: rest =>
    match decodeNibble hi, decodeNibble lo, decodeHexPairs rest with
    | some h, some l, some tail => some (Fin.ofNat (16 * h + l) :: tail)
    | _, _, _ => none

/-- Decoding of a JSON value into a `common.Address` field (`Address.UnmarshalJSON`):
only a string made of `0x` or `0X` and exactly forty hexadecimal digits is accepted;
`null` is rejected like any other non-string. -/
def unmarshalAddress (target : String) : JSON → Except DecodeError Address
  | .str s =>
    match s.toList with
    | '0' :: x :: digits =>
      if x = 'x' ∨ x = 'X' then
        match decodeHexPairs digits with
        | some bs => if h : bs.length = 20 then .ok ⟨bs, h⟩ else .error (.badHex target)
        | none => .error (.badHex target)
      else .error (.badHex target)
    | _ => .error (.badHex target)
  | _ => .error (.typeMismatch target)

/-! ## Event and payload shapes -/

/-- String-typed discriminator `types.SubscriptionEvent`. -/
abbrev SubscriptionEvent : Type := String

/-- Modelled from the spec: the declaration of the constant `types.SUBSCRIBE` is not
among the sources; the data model names the value `SUBSCRIBE`.  Only its being
different from `UNSUBSCRIBE` is ever used. -/
def SUBSCRIBE : SubscriptionEvent := "SUBSCRIBE"

/-- Modelled from the spec: the declaration of the constant `types.UNSUBSCRIBE` is not
among the sources; the data model names the value `UNSUBSCRIBE`. -/
def UNSUBSCRIBE : SubscriptionEvent := "UNSUBSCRIBE"

/-- Modelled from the spec: the declaration of `types.WebsocketEvent` is not among the
sources; the spec gives the envelope as a `type` discriminator and a raw
`payload`.  `Payload` is an `interface{}`, held as the document it was decoded from; its
nil value is `JSON.null`. -/
structure WebsocketEvent where
  Typ : SubscriptionEvent
  Payload : JSON

/-- Modelled from the spec: the declaration of `types.SubscriptionPayload` is not among
the sources; the spec gives it as the pair `baseToken`, `quoteToken` of addresses. -/
structure SubscriptionPayload where
  BaseToken : Address
  QuoteToken : Address
  deriving DecidableEq

/-! ## `encoding/json` on these two shapes -/

/-- Case folding of one character of an object key, as `encoding/json` applies it when
it looks a key up among ASCII field names: ASCII letters fold to lower case, and the
Kelvin sign and the long s fold to `k` and `s`. -/
def foldChar (ch : Char) : Char :=
  if ch = Char.ofNat 0x212A then 'k'
  else if ch = Char.ofNat 0x017F then 's'
  else ch.toLower

/-- Whether object key `key` selects the struct field tagged `name`. -/
def keyMatches (name key : String) : Bool :=
  key.toList.map foldChar == name.toList.map foldChar

/-- Storing a JSON value into a Go string field: a string is stored, `null` leaves the
field as it is, anything else is a type error. -/
def storeString (target : String) (cur : String) : JSON → Except DecodeError String
  | .str s => .ok s
  | .null => .ok cur
  | _ => .error (.typeMismatch target)

/-- Members of an envelope object, in order, stored into the event; a later member
overwrites an earlier one and unknown keys are skipped without being decoded.  A
`payload` value goes into an `interface{}`, which fails when a number in it does not fit
a `float64`. -/
def decodeEventMembers : List (String × JSON) → WebsocketEvent → Except DecodeError WebsocketEvent
  | [], ev => .ok ev
  | (k, v) :: rest, ev =>
    if keyMatches "type" k then
      match storeString "type" ev.Typ v with
      | .ok t => decodeEventMembers rest { ev with Typ := t }
      | .error e => .error e
    else if keyMatches "payload" k then
      if v.numbersFit then decodeEventMembers rest { ev with Payload := v }
      else .error (.typeMismatch "payload")
    else decodeEventMembers rest ev

/-- Step `json.Unmarshal(b, &ev)` with `ev *types.WebsocketEvent`: no bytes is an error,
`null` sets the pointer to nil, an object fills a fresh event, any other document is
a type error. -/
def unmarshalWebsocketEvent : Option JSON → Except DecodeError (Option WebsocketEvent)
  | none => .error .unexpectedEnd
  | some .null => .ok none
  | some (.obj members) =>
    match decodeEventMembers members ⟨"", .null⟩ with
    | .ok ev => .ok (some ev)
    | .error e => .error e
  | some _ => .error (.typeMismatch "WebsocketEvent")

/-- Insertion into a Go map rendered back by `json.Marshal`: keys are unique (the last
store wins) and come out in increasing order (character by character, which on UTF-8
is the byte order Go sorts by). -/
def mapStore (k : String) (v : JSON) : List (String × JSON) → List (String × JSON)
  | [] => [(k, v)]
  | (k0, v0) :: rest =>
    if k = k0 then (k, v) :: rest
    else if k.toList < k0.toList then (k, v) :: (k0, v0) :: rest
    else (k0, v0) :: mapStore k v rest

/-- Step `json.Marshal(ev.Payload)`: the payload was decoded into an `interface{}`, so an
object has become a map and is rendered with unique, sorted keys.  Values below the
first level are left as they are: the payload decoder looks at no more than their
kind. -/
def marshalInterface : JSON → JSON
  | .obj members => .obj (members.foldl (fun m kv => mapStore kv.1 kv.2 m) [])
  | j => j

/-- Members of a payload object stored into the subscription payload. -/
def decodePayloadMembers :
    List (String × JSON) → SubscriptionPayload → Except DecodeError SubscriptionPayload
  | [], p => .ok p
  | (k, v) :: rest, p =>
    if keyMatches "baseToken" k then
      match unmarshalAddress "baseToken" v with
      | .ok a => decodePayloadMembers rest { p with BaseToken := a }
      | .error e => .error e
    else if keyMatches "quoteToken" k then
      match unmarshalAddress "quoteToken" v with
      | .ok a => decodePayloadMembers rest { p with QuoteToken := a }
      | .error e => .error e
    else decodePayloadMembers rest p

/-- Step `json.Unmarshal(b, &p)` with `p *types.SubscriptionPayload`. -/
def unmarshalSubscriptionPayload : JSON → Except DecodeError (Option SubscriptionPayload)
  | .null => .ok none
  | .obj members =>
    match decodePayloadMembers members ⟨Address.zero, Address.zero⟩ with
    | .ok p => .ok (some p)
    | .error e => .error e
  | _ => .error (.typeMismatch "SubscriptionPayload")

/-- Lines 34-37 of the handler: the input marshalled, then decoded as an envelope. -/
def decodeEnvelope (input : GoValue) : Except DecodeError (Option WebsocketEvent) :=
  unmarshalWebsocketEvent (jsonMarshal input)

/-- Lines 53-56 of the handler: the payload marshalled, then decoded. -/
def decodePayload (ev : WebsocketEvent) : Except DecodeError (Option SubscriptionPayload) :=
  unmarshalSubscriptionPayload (marshalInterface ev.Payload)

/-! ## Effects and the handler -/

/-- Connection handle `*ws.Client`. -/
abbrev Client : Type := Nat

/-- Body of an error notice, `map[string]string`. -/
abbrev Notice : Type := List (String × String)

/-- One effect of the handler on its collaborators. -/
inductive Effect where
  | LogError (err : DecodeError)
  | LogInfo (label : String) (t : SubscriptionEvent)
  | SendErrorMessage (c : Client) (msg : Notice)
  | Subscribe (c : Client) (base quote : Address)
  | UnsubscribeChannel (c : Client) (base quote : Address)
  | Unsubscribe (c : Client)
  deriving DecidableEq

/-- Notice `errInvalidPayload`. -/
def errInvalidPayload : Notice := [("Message", "Invalid payload")]

/-- Notice sent when the payload cannot be decoded. -/
def msgInternal : Notice := [("Message", "Internal server error")]

/-- Notice sent for a zero base token. -/
def msgInvalidBase : Notice := [("Message", "Invalid base token")]

/-- Notice sent for a zero quote token. -/
def msgInvalidQuote : Notice := [("Message", "Invalid quote token")]

/-- Lines 84-91: the `if ev.Type == types.UNSUBSCRIBE` block. -/
def unsubscribeBlock (ev : WebsocketEvent) (p : Option SubscriptionPayload) (c : Client) :
    List Effect :=
  if ev.Typ = UNSUBSCRIBE then
    match p with
    | none => [.Unsubscribe c]
    | some p => [.UnsubscribeChannel c p.BaseToken p.QuoteToken]
  else []

/-- Lines 64-92: the `if ev.Type == types.SUBSCRIBE` block, which returns on a
rejection and otherwise falls through to the unsubscribe block. -/
def subscribeBlock (ev : WebsocketEvent) (p : Option SubscriptionPayload) (c : Client) :
    List Effect :=
  if ev.Typ = SUBSCRIBE then
    match p with
    | none => [.SendErrorMessage c errInvalidPayload]
    | some p =>
      if p.BaseToken = Address.zero then [.SendErrorMessage c msgInvalidBase]
      else if p.QuoteToken = Address.zero then [.SendErrorMessage c msgInvalidQuote]
      else .Subscribe c p.BaseToken p.QuoteToken :: unsubscribeBlock ev (some p) c
  else unsubscribeBlock ev p c

/-- Handler `PriceBoardEndpoint.handlePriceBoardWebSocket`: the effects of one call, in
order. -/
def handlePriceBoardWebSocket (input : GoValue) (c : Client) : List Effect :=
  match input with
  | .nil => [.SendErrorMessage c errInvalidPayload]
  | input =>
    match decodeEnvelope input with
    | .error err => [.LogError err]
    | .ok none => [.SendErrorMessage c errInvalidPayload]
    | .ok (some ev) =>
      if ev.Typ ≠ SUBSCRIBE ∧ ev.Typ ≠ UNSUBSCRIBE then
        [.LogInfo "Event Type" ev.Typ, .SendErrorMessage c errInvalidPayload]
      else
        match decodePayload ev with
        | .error err => [.LogError err, .SendErrorMessage c msgInternal]
        | .ok p => subscribeBlock ev p c

/-- Error notices in a run, each with the connection it was sent to. -/
def notices : List Effect → List (Client × Notice)
  | [] => []
  | .SendErrorMessage c msg :: rest => (c, msg) :: notices rest
  | _ :: rest => notices rest

/-- Whether an effect is a call on the `PriceBoardService`. -/
def Effect.isServiceCall : Effect → Bool
  | .Subscribe _ _ _ => true
  | .UnsubscribeChannel _ _ _ => true
  | .Unsubscribe _ => true
  | _ => false

/-- Calls on the `PriceBoardService` in a run. -/
def serviceCalls (run : List Effect) : List Effect :=
  run.filter Effect.isServiceCall

/-! ## Sample messages -/

/-- Envelope object with a `type` and a `payload` member. -/
def envelope (t : JSON) (payload : JSON) : GoValue :=
  .encodes (.obj [("type", t), ("payload", payload)])

/-- Payload object naming a pair by its two hexadecimal addresses. -/
def pairPayload (base quote : String) : JSON :=
  .obj [("baseToken", .str base), ("quoteToken", .str quote)]

/-- Address text of the sample base token. -/
def hexA : String := "0x00000000000000000000000000000000000000a1"

/-- Address text of the sample quote token. -/
def hexB : String := "0x00000000000000000000000000000000000000b2"

/-- Address text of the zero address. -/
def hexZero : String := "0x0000000000000000000000000000000000000000"

/-- Sample base token, the address written `hexA`. -/
def tokenA : Address := ⟨List.replicate 19 0 ++ [0xa1], by decide⟩

/-- Sample quote token, the address written `hexB`. -/
def tokenB : Address := ⟨List.replicate 19 0 ++ [0xb2], by decide⟩

end PriceBoard

namespace Deposit

/-! ## Bytes, strings and dynamic values -/

/-- One byte. -/
abbrev Byte : Type := Fin 256

/-- Go string, an immutable sequence of bytes; `[]byte(s)` is the same sequence. -/
abbrev GoString : Type := List Byte

/-- Bytes of an ASCII string literal of the source. -/
def literal (text : String) : GoString :=
  text.toList.map (fun ch => Fin.ofNat ch.toNat)

/-- Error value made by `errors.New`. -/
structure GoError where
  message : String
  deriving DecidableEq, Repr

/-- Argument of type `interface{}` as `Chain.Scan` sees it: the nil interface, a value
of dynamic type `[]byte` (the nil slice is the empty one), or a value of some other
dynamic type. -/
inductive Dynamic where
  | nil
  | byteSlice (value : List Byte)
  | string (value : GoString)
  | int (value : Int)
  | other (kind : Nat)
  deriving DecidableEq, Repr

/-! ## Chains -/

/-- Declaration `type Chain string`. -/
abbrev Chain : Type := GoString

/-- Constant `ChainEthereum`. -/
def ChainEthereum : Chain := literal "ethereum"

/-- Method `(s *Chain) Scan(src interface{}) error`: the receiver after the call, and the
error returned. -/
def Chain.Scan (s : Chain) (src : Dynamic) : Chain × Option GoError :=
  match src with
  | .byteSlice value => (value, none)
  | _ => (s, some ⟨"Cannot convert value to Chain"⟩)

/-- Function `NewChain`. -/
def NewChain (str : Dynamic) : Chain :=
  match Chain.Scan [] str with
  | (_, some _) => ChainEthereum
  | (chain, none) => chain

/-! ## Address associations -/

/-- Instant of `time.Time`, as seconds and nanoseconds from the Unix epoch. -/
structure Time where
  sec : Int
  nsec : Int
  deriving DecidableEq, Repr

/-- Call `time.Unix(sec, nsec)` for a nanosecond count within one second. -/
def timeUnix (sec nsec : Int) : Time := ⟨sec, nsec⟩

/-- Conversion `int64(x)` of a `uint64`. -/
def int64 (x : Nat) : Int :=
  if x % 2 ^ 64 < 2 ^ 63 then (x % 2 ^ 64 : Nat) else (x % 2 ^ 64 : Nat) - 2 ^ 64

/-- First step of `Address.SetBytes`: `if len(b) > len(a) then b = b[len(b)-AddressLength:]`. -/
def cropLeft (b : List Byte) : List Byte :=
  if 20 < b.length then b.drop (b.length - 20) else b

/-- Method `Address.SetBytes`: after cropping, `copy(a[AddressLength-len(b):], b)`. -/
def SetBytes (a : PriceBoard.Address) (b : List Byte) : PriceBoard.Address :=
  ⟨a.val.take (20 - (cropLeft b).length) ++ cropLeft b, by
    have ha := a.property
    have hb : (cropLeft b).length ≤ 20 := by
      unfold cropLeft
      split
      · rw [List.length_drop]
        omega
      · omega
    rw [List.length_append, List.length_take]
    omega⟩

/-- Function `common.BytesToAddress`. -/
def BytesToAddress (b : List Byte) : PriceBoard.Address :=
  SetBytes PriceBoard.Address.zero b

/-- Record `AddressAssociation`. -/
structure AddressAssociation where
  Chain : Chain
  AddressIndex : Nat
  Address : PriceBoard.Address
  AssociatedAddress : PriceBoard.Address
  TomochainPublicKey : PriceBoard.Address
  CreatedAt : Time
  deriving DecidableEq

/-- Record `AddressAssociationFeed`; the two `uint64` fields are numbers below `2 ^ 64`. -/
structure AddressAssociationFeed where
  Address : List Byte
  AddressIndex : Nat
  AssociatedAddress : List Byte
  Chain : Chain
  CreatedAt : Nat
  TomochainPublicKey : List Byte
  deriving DecidableEq

/-- Method `(aaf *AddressAssociationFeed) GetJSON`: the receiver after the call, the
association returned and the error returned. -/
def AddressAssociationFeed.GetJSON (aaf : AddressAssociationFeed) :
    AddressAssociationFeed × AddressAssociation × Option GoError :=
  let timestamp := timeUnix (int64 aaf.CreatedAt) 0
  let aa : AddressAssociation :=
    { Chain := aaf.Chain
      Address := BytesToAddress aaf.Address
      AddressIndex := aaf.AddressIndex
      AssociatedAddress := BytesToAddress aaf.AssociatedAddress
      TomochainPublicKey := BytesToAddress aaf.TomochainPublicKey
      CreatedAt := timestamp }
  (aaf, aa, none)

/-- Right alignment in twenty bytes, in the words of the specification: zeros on the left when
the input is shorter, the last twenty bytes when it is longer. -/
def rightAligned (b : List Byte) : List Byte :=
  if b.length ≤ 20 then List.replicate (20 - b.length) 0 ++ b
  else b.drop (b.length - 20)

/-! ## Association transactions -/

/-- Record `AssociationTransaction`. -/
structure AssociationTransaction where
  Source : GoString
  Signature : List Byte
  Hash : List Byte
  TransactionType : GoString
  Params : List GoString
  deriving DecidableEq

/-- State of the hash made by `sha3.NewKeccak256`: the bytes written so far. -/
structure KeccakState where
  written : List Byte
  deriving DecidableEq

/-- Call `sha3.NewKeccak256()`. -/
def NewKeccak256 : KeccakState := ⟨[]⟩

/-- Call `sha.Write(p)`. -/
def KeccakState.Write (sha : KeccakState) (p : List Byte) : KeccakState :=
  ⟨sha.written ++ p⟩

/-- Call `sha.Sum(b)`: `b` followed by the digest of everything written; `keccak256` is
the digest function of the library. -/
def KeccakState.Sum (keccak256 : List Byte → List Byte) (sha : KeccakState) (b : List Byte) :
    List Byte :=
  b ++ keccak256 sha.written

/-- Hash state of `ComputeHash` just before `sha.Sum(nil)`. -/
def hashState (o : AssociationTransaction) : KeccakState :=
  let sha := NewKeccak256
  let sha := sha.Write o.Source
  let sha := sha.Write o.TransactionType
  o.Params.foldl (fun sha param => sha.Write param) sha

/-- Method `(o *AssociationTransaction) ComputeHash`: the receiver after the call and the
digest returned. -/
def AssociationTransaction.ComputeHash (keccak256 : List Byte → List Byte)
    (o : AssociationTransaction) : AssociationTransaction × List Byte :=
  (o, (hashState o).Sum keccak256 [])

/-- Concatenation of source, transaction type and parameters, as the specification
words it. -/
def concatenation (o : AssociationTransaction) : List Byte :=
  o.Source ++ o.TransactionType ++ o.Params.flatten

/-! ## Sample records -/

/-- Feed whose address is short, whose associated address is long and whose creation
time has the top bit set. -/
def sampleFeed : AddressAssociationFeed :=
  { Address := [0xa1, 0xb2]
    AddressIndex := 5
    AssociatedAddress := List.replicate 21 7 ++ [9]
    Chain := literal "bitcoin"
    CreatedAt := 2 ^ 64 - 1
    TomochainPublicKey := []  }

/-- Transaction with two parameters. -/
def sampleTx : AssociationTransaction :=
  { Source := literal "ab"
    Signature := [1]
    Hash := [2]
    TransactionType := literal "c"
    Params := [literal "x", literal "yz"] }

end Deposit

namespace PriceBoard

/-! ## Shared lemmas -/

theorem subscribe_ne_unsubscribe : SUBSCRIBE ≠ UNSUBSCRIBE := by decide

theorem decodeEnvelope_nil : decodeEnvelope .nil = .ok none := rfl

/-- Run of the handler on a non-nil input whose envelope decodes to the nil pointer. -/
theorem handle_null_envelope (input : GoValue) (c : Client) (hnil : input ≠ .nil)
    (hdec : decodeEnvelope input = .ok none) :
    handlePriceBoardWebSocket input c = [.SendErrorMessage c errInvalidPayload] := by
  cases input with
  | nil => exact absurd rfl hnil
  | encodes j => simp only [handlePriceBoardWebSocket, hdec]
  | unencodable => simp only [handlePriceBoardWebSocket, hdec]

/-- Run of the handler on an input whose envelope fails to decode. -/
theorem handle_envelope_error (input : GoValue) (c : Client) (err : DecodeError)
    (hdec : decodeEnvelope input = .error err) :
    handlePriceBoardWebSocket input c = [.LogError err] := by
  cases input with
  | nil => simp [decodeEnvelope_nil] at hdec
  | encodes j => simp only [handlePriceBoardWebSocket, hdec]
  | unencodable => simp only [handlePriceBoardWebSocket, hdec]

/-- Run of the handler on an input whose envelope decodes to an event. -/
theorem handle_event (input : GoValue) (c : Client) (ev : WebsocketEvent)
    (hdec : decodeEnvelope input = .ok (some ev)) :
    handlePriceBoardWebSocket input c =
      if ev.Typ ≠ SUBSCRIBE ∧ ev.Typ ≠ UNSUBSCRIBE then
        [.LogInfo "Event Type" ev.Typ, .SendErrorMessage c errInvalidPayload]
      else
        match decodePayload ev with
        | .error err => [.LogError err, .SendErrorMessage c msgInternal]
        | .ok p => subscribeBlock ev p c := by
  cases input with
  | nil => simp [decodeEnvelope_nil] at hdec
  | encodes j => simp only [handlePriceBoardWebSocket, hdec]
  | unencodable => simp only [handlePriceBoardWebSocket, hdec]

/-- Members none of whose keys selects `type` leave the discriminator as it was,
whenever they decode. -/
theorem decodeEventMembers_no_type (members : List (String × JSON))
    (hno : ∀ kv ∈ members, keyMatches "type" kv.1 = false) (ev ev1 : WebsocketEvent)
    (hdec : decodeEventMembers members ev = .ok ev1) :
    ev1.Typ = ev.Typ := by
  induction members generalizing ev with
  | nil =>
    simp only [decodeEventMembers, Except.ok.injEq] at hdec
    rw [← hdec]
  | cons kv rest ih =>
    obtain ⟨k, v⟩ := kv
    have hk : keyMatches "type" k = false := hno (k, v) (List.mem_cons_self _ _)
    have hrest : ∀ kv ∈ rest, keyMatches "type" kv.1 = false :=
      fun kv h => hno kv (List.mem_cons_of_mem _ h)
    simp only [decodeEventMembers, hk, Bool.false_eq_true, if_false] at hdec
    by_cases hp : keyMatches "payload" k = true
    · simp only [hp, if_true] at hdec
      by_cases hfit : v.numbersFit = true
      · simp only [hfit, if_true] at hdec
        have h := ih hrest { ev with Payload := v } hdec
        exact h
      · simp only [hfit, Bool.false_eq_true, if_false] at hdec
        cases hdec
    · simp only [hp, if_false] at hdec
      exact ih hrest _ hdec

/-- An envelope object decodes to an event exactly when its members do. -/
theorem decodeEnvelope_obj (members : List (String × JSON)) (e : WebsocketEvent)
    (hdec : decodeEnvelope (.encodes (.obj members)) = .ok (some e)) :
    decodeEventMembers members ⟨"", .null⟩ = .ok e := by
  simp only [decodeEnvelope, jsonMarshal, unmarshalWebsocketEvent] at hdec
  cases h : decodeEventMembers members ⟨"", .null⟩ with
  | error err => simp [h] at hdec
  | ok ev =>
    simp only [h, Except.ok.injEq, Option.some.injEq] at hdec
    rw [hdec]

/-- Run of the handler on a recognised event whose payload decodes. -/
theorem handle_payload_ok (input : GoValue) (c : Client) (ev : WebsocketEvent)
    (p : Option SubscriptionPayload)
    (hdec : decodeEnvelope input = .ok (some ev))
    (hty : ev.Typ = SUBSCRIBE ∨ ev.Typ = UNSUBSCRIBE)
    (hp : decodePayload ev = .ok p) :
    handlePriceBoardWebSocket input c = subscribeBlock ev p c := by
  have hne : ¬ (ev.Typ ≠ SUBSCRIBE ∧ ev.Typ ≠ UNSUBSCRIBE) := by
    rintro ⟨h1, h2⟩
    rcases hty with h | h
    · exact h1 h
    · exact h2 h
  rw [handle_event input c ev hdec, if_neg hne, hp]

/-- The subscribe block on a SUBSCRIBE event with a nil payload. -/
theorem subscribeBlock_nil (ev : WebsocketEvent) (c : Client) (hty : ev.Typ = SUBSCRIBE) :
    subscribeBlock ev none c = [.SendErrorMessage c errInvalidPayload] := by
  simp only [subscribeBlock, hty, if_true]

/-- The subscribe block on a SUBSCRIBE event with a decoded payload. -/
theorem subscribeBlock_some (ev : WebsocketEvent) (c : Client) (p : SubscriptionPayload)
    (hty : ev.Typ = SUBSCRIBE) :
    subscribeBlock ev (some p) c =
      if p.BaseToken = Address.zero then [.SendErrorMessage c msgInvalidBase]
      else if p.QuoteToken = Address.zero then [.SendErrorMessage c msgInvalidQuote]
      else [.Subscribe c p.BaseToken p.QuoteToken] := by
  simp only [subscribeBlock, unsubscribeBlock, hty, if_true, if_neg subscribe_ne_unsubscribe]

/-- The subscribe block on an UNSUBSCRIBE event with a nil payload. -/
theorem subscribeBlock_unsubscribe_nil (ev : WebsocketEvent) (c : Client)
    (hty : ev.Typ = UNSUBSCRIBE) :
    subscribeBlock ev none c = [.Unsubscribe c] := by
  have hns : ¬ (UNSUBSCRIBE = SUBSCRIBE) := fun h => subscribe_ne_unsubscribe h.symm
  simp only [subscribeBlock, unsubscribeBlock, hty, if_true, if_neg hns]

/-- The subscribe block on an UNSUBSCRIBE event with a decoded payload. -/
theorem subscribeBlock_unsubscribe_some (ev : WebsocketEvent) (c : Client)
    (p : SubscriptionPayload) (hty : ev.Typ = UNSUBSCRIBE) :
    subscribeBlock ev (some p) c = [.UnsubscribeChannel c p.BaseToken p.QuoteToken] := by
  have hns : ¬ (UNSUBSCRIBE = SUBSCRIBE) := fun h => subscribe_ne_unsubscribe h.symm
  simp only [subscribeBlock, unsubscribeBlock, hty, if_true, if_neg hns]

/-- Run of the handler on a recognised event whose payload fails to decode. -/
theorem handle_payload_error (input : GoValue) (c : Client) (ev : WebsocketEvent)
    (err : DecodeError)
    (hdec : decodeEnvelope input = .ok (some ev))
    (hty : ev.Typ = SUBSCRIBE ∨ ev.Typ = UNSUBSCRIBE)
    (hp : decodePayload ev = .error err) :
    handlePriceBoardWebSocket input c = [.LogError err, .SendErrorMessage c msgInternal] := by
  have hne : ¬ (ev.Typ ≠ SUBSCRIBE ∧ ev.Typ ≠ UNSUBSCRIBE) := by
    rintro ⟨h1, h2⟩
    rcases hty with h | h
    · exact h1 h
    · exact h2 h
  rw [handle_event input c ev hdec, if_neg hne, hp]

/-- A payload that is nil (absent or `null`) decodes to the nil pointer. -/
theorem decodePayload_null (ev : WebsocketEvent) (h : ev.Payload = .null) :
    decodePayload ev = .ok none := by
  simp only [decodePayload, h, marshalInterface, unmarshalSubscriptionPayload]

/-- Every run of the handler has one of nine shapes. -/
theorem handle_shapes (input : GoValue) (c : Client) :
    (∃ err, handlePriceBoardWebSocket input c = [.LogError err]) ∨
    (∃ t, handlePriceBoardWebSocket input c
        = [.LogInfo "Event Type" t, .SendErrorMessage c errInvalidPayload]) ∨
    (∃ err, handlePriceBoardWebSocket input c
        = [.LogError err, .SendErrorMessage c msgInternal]) ∨
    handlePriceBoardWebSocket input c = [.SendErrorMessage c errInvalidPayload] ∨
    handlePriceBoardWebSocket input c = [.SendErrorMessage c msgInvalidBase] ∨
    handlePriceBoardWebSocket input c = [.SendErrorMessage c msgInvalidQuote] ∨
    (∃ b q, handlePriceBoardWebSocket input c = [.Subscribe c b q]) ∨
    (∃ b q, handlePriceBoardWebSocket input c = [.UnsubscribeChannel c b q]) ∨
    handlePriceBoardWebSocket input c = [.Unsubscribe c] := by
  by_cases hnil : input = .nil
  · subst hnil
    exact Or.inr (Or.inr (Or.inr (Or.inl rfl)))
  · cases hdec : decodeEnvelope input with
    | error err => exact Or.inl ⟨err, handle_envelope_error input c err hdec⟩
    | ok evo =>
      cases evo with
      | none => exact Or.inr (Or.inr (Or.inr (Or.inl (handle_null_envelope input c hnil hdec))))
      | some ev =>
        by_cases hbad : ev.Typ ≠ SUBSCRIBE ∧ ev.Typ ≠ UNSUBSCRIBE
        · refine Or.inr (Or.inl ⟨ev.Typ, ?_⟩)
          rw [handle_event input c ev hdec, if_pos hbad]
        · have hty : ev.Typ = SUBSCRIBE ∨ ev.Typ = UNSUBSCRIBE := by
            by_cases h1 : ev.Typ = SUBSCRIBE
            · exact Or.inl h1
            · by_cases h2 : ev.Typ = UNSUBSCRIBE
              · exact Or.inr h2
              · exact absurd ⟨h1, h2⟩ hbad
          cases hp : decodePayload ev with
          | error err =>
            exact Or.inr (Or.inr (Or.inl ⟨err, handle_payload_error input c ev err hdec hty hp⟩))
          | ok po =>
            rw [handle_payload_ok input c ev po hdec hty hp]
            rcases hty with hs | hu
            · cases po with
              | none =>
                rw [subscribeBlock_nil ev c hs]
                exact Or.inr (Or.inr (Or.inr (Or.inl rfl)))
              | some q =>
                rw [subscribeBlock_some ev c q hs]
                by_cases hb : q.BaseToken = Address.zero
                · rw [if_pos hb]
                  exact Or.inr (Or.inr (Or.inr (Or.inr (Or.inl rfl))))
                · rw [if_neg hb]
                  by_cases hq : q.QuoteToken = Address.zero
                  · rw [if_pos hq]
                    exact Or.inr (Or.inr (Or.inr (Or.inr (Or.inr (Or.inl rfl)))))
                  · rw [if_neg hq]
                    exact Or.inr (Or.inr (Or.inr (Or.inr (Or.inr (Or.inr
                      (Or.inl ⟨_, _, rfl⟩))))))
            · cases po with
              | none =>
                rw [subscribeBlock_unsubscribe_nil ev c hu]
                exact Or.inr (Or.inr (Or.inr (Or.inr (Or.inr (Or.inr (Or.inr (Or.inr rfl)))))))
              | some q =>
                rw [subscribeBlock_unsubscribe_some ev c q hu]
                exact Or.inr (Or.inr (Or.inr (Or.inr (Or.inr (Or.inr (Or.inr
                  (Or.inl ⟨_, _, rfl⟩)))))))

/-! ## Claims -/

/-- C1, as stated, fails: the message whose `type` is the number 5 has a type value other
than SUBSCRIBE and UNSUBSCRIBE, and the message whose only member is a `payload` beyond
`float64` has no type member; `json.Unmarshal` rejects both, and the handler logs the
error and sends no notice. -/
theorem numeric_type_no_notice :
    handlePriceBoardWebSocket (.encodes (.obj [("type", .num 5)])) 7
      = [.LogError (.typeMismatch "type")] ∧
    notices (handlePriceBoardWebSocket (.encodes (.obj [("type", .num 5)])) 7) = [] ∧
    ¬ (notices (handlePriceBoardWebSocket (.encodes (.obj [("type", .num 5)])) 7)
        = [(7, [("Message", "Invalid payload")])]) ∧
    handlePriceBoardWebSocket
        (.encodes (.obj [("payload", .num ((10 ^ 200 * 10 ^ 200 : Nat) : Int))])) 7
      = [.LogError (.typeMismatch "payload")] ∧
    notices (handlePriceBoardWebSocket
        (.encodes (.obj [("payload", .num ((10 ^ 200 * 10 ^ 200 : Nat) : Int))])) 7) = [] := by
  refine ⟨by decide, by decide, by decide, by decide, by decide⟩

/-- C1, amended: a non-nil message that `json.Unmarshal` decodes into the event shape (the
nil pointer or an event) with a discriminator that is neither SUBSCRIBE nor UNSUBSCRIBE
draws exactly one notice, "Invalid payload", to the calling connection and no service
call; an envelope object with no `type` member that decodes has the empty discriminator
and is such a message. -/
theorem unrecognized_type_invalid_payload (input : GoValue) (c : Client) :
    (∀ ev : Option WebsocketEvent, input ≠ .nil → decodeEnvelope input = .ok ev →
      (∀ e, ev = some e → e.Typ ≠ SUBSCRIBE ∧ e.Typ ≠ UNSUBSCRIBE) →
      notices (handlePriceBoardWebSocket input c) = [(c, [("Message", "Invalid payload")])] ∧
      serviceCalls (handlePriceBoardWebSocket input c) = []) ∧
    (∀ (members : List (String × JSON)) (e : WebsocketEvent),
      (∀ kv ∈ members, keyMatches "type" kv.1 = false) →
      decodeEnvelope (.encodes (.obj members)) = .ok (some e) →
      e.Typ = "" ∧
      notices (handlePriceBoardWebSocket (.encodes (.obj members)) c)
          = [(c, [("Message", "Invalid payload")])] ∧
      serviceCalls (handlePriceBoardWebSocket (.encodes (.obj members)) c) = []) := by
  have main : ∀ (inp : GoValue) (ev : Option WebsocketEvent), inp ≠ .nil →
      decodeEnvelope inp = .ok ev →
      (∀ e, ev = some e → e.Typ ≠ SUBSCRIBE ∧ e.Typ ≠ UNSUBSCRIBE) →
      notices (handlePriceBoardWebSocket inp c) = [(c, [("Message", "Invalid payload")])] ∧
      serviceCalls (handlePriceBoardWebSocket inp c) = [] := by
    intro inp ev hnil hdec htype
    cases ev with
    | none =>
      rw [handle_null_envelope inp c hnil hdec]
      exact ⟨rfl, rfl⟩
    | some e =>
      rw [handle_event inp c e hdec, if_pos (htype e rfl)]
      exact ⟨rfl, rfl⟩
  refine ⟨main input, ?_⟩
  intro members e hno hdec
  have hty : e.Typ = "" :=
    decodeEventMembers_no_type members hno ⟨"", .null⟩ e (decodeEnvelope_obj members e hdec)
  refine ⟨hty, main _ (some e) (fun h => by cases h) hdec ?_⟩
  intro e2 he
  cases he
  rw [hty]
  decide

/-- C1 witness: an envelope typed "fetch" with a null payload. -/
theorem unrecognized_type_invalid_payload_witness :
    notices (handlePriceBoardWebSocket
        (.encodes (.obj [("type", .str "fetch"), ("payload", .null)])) 7)
      = [(7, errInvalidPayload)] ∧
    serviceCalls (handlePriceBoardWebSocket
        (.encodes (.obj [("type", .str "fetch"), ("payload", .null)])) 7) = [] :=
  (unrecognized_type_invalid_payload
      (.encodes (.obj [("type", .str "fetch"), ("payload", .null)])) 7).1
    (some ⟨"fetch", .null⟩) (fun h => by cases h) rfl
    (fun e he => by cases he; decide)

/-- C2: a SUBSCRIBE event whose payload decodes with a zero base token draws exactly one
notice, "Invalid base token", to the calling connection and no service call, whatever
the quote token is. -/
theorem subscribe_zero_base (input : GoValue) (c : Client) (ev : WebsocketEvent)
    (p : SubscriptionPayload)
    (hdec : decodeEnvelope input = .ok (some ev)) (hty : ev.Typ = SUBSCRIBE)
    (hp : decodePayload ev = .ok (some p)) (hbase : p.BaseToken = Address.zero) :
    notices (handlePriceBoardWebSocket input c) = [(c, [("Message", "Invalid base token")])] ∧
    serviceCalls (handlePriceBoardWebSocket input c) = [] := by
  rw [handle_payload_ok input c ev (some p) hdec (Or.inl hty) hp,
    subscribeBlock_some ev c p hty, if_pos hbase]
  exact ⟨rfl, rfl⟩

/-- C2 witness: SUBSCRIBE with a zero base token and a non-zero quote token. -/
theorem subscribe_zero_base_witness :
    notices (handlePriceBoardWebSocket (envelope (.str SUBSCRIBE) (pairPayload hexZero hexB)) 7)
      = [(7, [("Message", "Invalid base token")])] ∧
    serviceCalls
      (handlePriceBoardWebSocket (envelope (.str SUBSCRIBE) (pairPayload hexZero hexB)) 7) = [] :=
  subscribe_zero_base (envelope (.str SUBSCRIBE) (pairPayload hexZero hexB)) 7
    ⟨SUBSCRIBE, pairPayload hexZero hexB⟩ ⟨Address.zero, tokenB⟩ rfl rfl rfl rfl

/-- C3: a SUBSCRIBE event whose payload decodes to a non-zero base and a non-zero quote
makes the single call `Subscribe(c, base, quote)`, base first, and nothing else: no
notice, no other service call. -/
theorem subscribe_valid (input : GoValue) (c : Client) (ev : WebsocketEvent)
    (p : SubscriptionPayload)
    (hdec : decodeEnvelope input = .ok (some ev)) (hty : ev.Typ = SUBSCRIBE)
    (hp : decodePayload ev = .ok (some p))
    (hbase : p.BaseToken ≠ Address.zero) (hquote : p.QuoteToken ≠ Address.zero) :
    handlePriceBoardWebSocket input c = [.Subscribe c p.BaseToken p.QuoteToken] ∧
    serviceCalls (handlePriceBoardWebSocket input c) = [.Subscribe c p.BaseToken p.QuoteToken] ∧
    notices (handlePriceBoardWebSocket input c) = [] := by
  rw [handle_payload_ok input c ev (some p) hdec (Or.inl hty) hp,
    subscribeBlock_some ev c p hty, if_neg hbase, if_neg hquote]
  exact ⟨rfl, rfl, rfl⟩

/-- C3 witness: SUBSCRIBE to the pair (A, B) calls `Subscribe(7, A, B)`. -/
theorem subscribe_valid_witness :
    handlePriceBoardWebSocket (envelope (.str SUBSCRIBE) (pairPayload hexA hexB)) 7
      = [.Subscribe 7 tokenA tokenB] ∧
    serviceCalls (handlePriceBoardWebSocket (envelope (.str SUBSCRIBE) (pairPayload hexA hexB)) 7)
      = [.Subscribe 7 tokenA tokenB] ∧
    notices (handlePriceBoardWebSocket (envelope (.str SUBSCRIBE) (pairPayload hexA hexB)) 7)
      = [] :=
  subscribe_valid (envelope (.str SUBSCRIBE) (pairPayload hexA hexB)) 7
    ⟨SUBSCRIBE, pairPayload hexA hexB⟩ ⟨tokenA, tokenB⟩ rfl rfl rfl (by decide) (by decide)

/-- C4, as stated, fails: an UNSUBSCRIBE event whose payload is the string "all", which
does not decode into a subscription payload, is answered with the notice "Internal
server error" and `Unsubscribe` is not called. -/
theorem unsubscribe_undecodable_not_global :
    decodeEnvelope (envelope (.str UNSUBSCRIBE) (.str "all"))
      = .ok (some ⟨UNSUBSCRIBE, .str "all"⟩) ∧
    decodePayload ⟨UNSUBSCRIBE, .str "all"⟩ = .error (.typeMismatch "SubscriptionPayload") ∧
    serviceCalls (handlePriceBoardWebSocket (envelope (.str UNSUBSCRIBE) (.str "all")) 7) = [] ∧
    notices (handlePriceBoardWebSocket (envelope (.str UNSUBSCRIBE) (.str "all")) 7)
      = [(7, [("Message", "Internal server error")])] ∧
    ¬ (serviceCalls (handlePriceBoardWebSocket (envelope (.str UNSUBSCRIBE) (.str "all")) 7)
        = [.Unsubscribe 7] ∧
       notices (handlePriceBoardWebSocket (envelope (.str UNSUBSCRIBE) (.str "all")) 7) = []) := by
  refine ⟨rfl, rfl, by decide, by decide, by decide⟩

/-- C4, amended: an UNSUBSCRIBE event whose payload is absent or null makes the single
call `Unsubscribe(c)` and sends no notice; an UNSUBSCRIBE event whose payload is present
but does not decode draws exactly one notice, "Internal server error", and no service
call. -/
theorem unsubscribe_nil_payload_global (input : GoValue) (c : Client) (ev : WebsocketEvent)
    (hdec : decodeEnvelope input = .ok (some ev)) (hty : ev.Typ = UNSUBSCRIBE) :
    (ev.Payload = .null →
      handlePriceBoardWebSocket input c = [.Unsubscribe c] ∧
      serviceCalls (handlePriceBoardWebSocket input c) = [.Unsubscribe c] ∧
      notices (handlePriceBoardWebSocket input c) = []) ∧
    (∀ err, decodePayload ev = .error err →
      notices (handlePriceBoardWebSocket input c)
        = [(c, [("Message", "Internal server error")])] ∧
      serviceCalls (handlePriceBoardWebSocket input c) = []) := by
  constructor
  · intro hnull
    rw [handle_payload_ok input c ev none hdec (Or.inr hty) (decodePayload_null ev hnull),
      subscribeBlock_unsubscribe_nil ev c hty]
    exact ⟨rfl, rfl, rfl⟩
  · intro err herr
    rw [handle_payload_error input c ev err hdec (Or.inr hty) herr]
    exact ⟨rfl, rfl⟩

/-- C4 witness: UNSUBSCRIBE with a null payload. -/
theorem unsubscribe_nil_payload_global_witness :
    handlePriceBoardWebSocket (envelope (.str UNSUBSCRIBE) .null) 7 = [.Unsubscribe 7] ∧
    serviceCalls (handlePriceBoardWebSocket (envelope (.str UNSUBSCRIBE) .null) 7)
      = [.Unsubscribe 7] ∧
    notices (handlePriceBoardWebSocket (envelope (.str UNSUBSCRIBE) .null) 7) = [] :=
  (unsubscribe_nil_payload_global (envelope (.str UNSUBSCRIBE) .null) 7
    ⟨UNSUBSCRIBE, .null⟩ rfl rfl).1 rfl

/-- C5: an UNSUBSCRIBE event whose payload decodes to a pair makes the single call
`UnsubscribeChannel(c, base, quote)` and nothing else: no `Unsubscribe`, no `Subscribe`,
no notice. -/
theorem unsubscribe_pair_only (input : GoValue) (c : Client) (ev : WebsocketEvent)
    (p : SubscriptionPayload)
    (hdec : decodeEnvelope input = .ok (some ev)) (hty : ev.Typ = UNSUBSCRIBE)
    (hp : decodePayload ev = .ok (some p)) :
    handlePriceBoardWebSocket input c = [.UnsubscribeChannel c p.BaseToken p.QuoteToken] ∧
    serviceCalls (handlePriceBoardWebSocket input c)
      = [.UnsubscribeChannel c p.BaseToken p.QuoteToken] ∧
    notices (handlePriceBoardWebSocket input c) = [] := by
  rw [handle_payload_ok input c ev (some p) hdec (Or.inr hty) hp,
    subscribeBlock_unsubscribe_some ev c p hty]
  exact ⟨rfl, rfl, rfl⟩

/-- C5 witness: UNSUBSCRIBE from the pair (A, B). -/
theorem unsubscribe_pair_only_witness :
    handlePriceBoardWebSocket (envelope (.str UNSUBSCRIBE) (pairPayload hexA hexB)) 7
      = [.UnsubscribeChannel 7 tokenA tokenB] ∧
    serviceCalls
        (handlePriceBoardWebSocket (envelope (.str UNSUBSCRIBE) (pairPayload hexA hexB)) 7)
      = [.UnsubscribeChannel 7 tokenA tokenB] ∧
    notices (handlePriceBoardWebSocket (envelope (.str UNSUBSCRIBE) (pairPayload hexA hexB)) 7)
      = [] :=
  unsubscribe_pair_only (envelope (.str UNSUBSCRIBE) (pairPayload hexA hexB)) 7
    ⟨UNSUBSCRIBE, pairPayload hexA hexB⟩ ⟨tokenA, tokenB⟩ rfl rfl rfl

/-- C6, as stated, fails: the message "ping", a bare JSON string, cannot be decoded
into the event shape, and the handler logs the error and sends no notice at all. -/
theorem undecodable_envelope_no_notice :
    decodeEnvelope (.encodes (.str "ping")) = .error (.typeMismatch "WebsocketEvent") ∧
    handlePriceBoardWebSocket (.encodes (.str "ping")) 7
      = [.LogError (.typeMismatch "WebsocketEvent")] ∧
    notices (handlePriceBoardWebSocket (.encodes (.str "ping")) 7) = [] ∧
    ¬ ∃ msg, (7, msg) ∈ notices (handlePriceBoardWebSocket (.encodes (.str "ping")) 7) := by
  refine ⟨rfl, by decide, by decide, ?_⟩
  rintro ⟨msg, h⟩
  have hrun : notices (handlePriceBoardWebSocket (.encodes (.str "ping")) 7) = [] := by decide
  rw [hrun] at h
  exact List.not_mem_nil _ h

/-- C6, amended: a message rejected at the decode or validate stage never reaches the
service.  When the rejection is a nil input, a null envelope, an unrecognised type, an
undecodable payload, or on SUBSCRIBE a nil payload or a zero token, exactly one notice
goes to the calling connection; when the envelope itself cannot be decoded the error is
only logged and no notice is sent. -/
theorem rejected_message_no_service_call (input : GoValue) (c : Client) :
    ((input = .nil ∨ decodeEnvelope input = .ok none ∨
        ∃ ev, decodeEnvelope input = .ok (some ev) ∧
          ((ev.Typ ≠ SUBSCRIBE ∧ ev.Typ ≠ UNSUBSCRIBE) ∨
           ((ev.Typ = SUBSCRIBE ∨ ev.Typ = UNSUBSCRIBE) ∧
              ∃ err, decodePayload ev = .error err) ∨
           (ev.Typ = SUBSCRIBE ∧
              (decodePayload ev = .ok none ∨
               ∃ p, decodePayload ev = .ok (some p) ∧
                 (p.BaseToken = Address.zero ∨ p.QuoteToken = Address.zero))))) →
      serviceCalls (handlePriceBoardWebSocket input c) = [] ∧
      ∃ msg, notices (handlePriceBoardWebSocket input c) = [(c, msg)]) ∧
    (∀ err, decodeEnvelope input = .error err →
      serviceCalls (handlePriceBoardWebSocket input c) = [] ∧
      notices (handlePriceBoardWebSocket input c) = []) := by
  constructor
  · intro h
    by_cases hnil : input = .nil
    · subst hnil
      exact ⟨rfl, _, rfl⟩
    · rcases h with h | h | ⟨ev, hdec, h⟩
      · exact absurd h hnil
      · rw [handle_null_envelope input c hnil h]
        exact ⟨rfl, _, rfl⟩
      · rcases h with hbad | ⟨hty, err, herr⟩ | ⟨hs, hp⟩
        · rw [handle_event input c ev hdec, if_pos hbad]
          exact ⟨rfl, _, rfl⟩
        · rw [handle_payload_error input c ev err hdec hty herr]
          exact ⟨rfl, _, rfl⟩
        · rcases hp with hp | ⟨p, hp, hz⟩
          · rw [handle_payload_ok input c ev none hdec (Or.inl hs) hp, subscribeBlock_nil ev c hs]
            exact ⟨rfl, _, rfl⟩
          · rw [handle_payload_ok input c ev (some p) hdec (Or.inl hs) hp,
              subscribeBlock_some ev c p hs]
            by_cases hb : p.BaseToken = Address.zero
            · rw [if_pos hb]
              exact ⟨rfl, _, rfl⟩
            · rw [if_neg hb]
              have hq : p.QuoteToken = Address.zero := hz.resolve_left hb
              rw [if_pos hq]
              exact ⟨rfl, _, rfl⟩
  · intro err herr
    rw [handle_envelope_error input c err herr]
    exact ⟨rfl, rfl⟩

/-- C6 witness: the nil input is rejected with one notice and no service call. -/
theorem rejected_message_no_service_call_witness :
    serviceCalls (handlePriceBoardWebSocket .nil 7) = [] ∧
    ∃ msg, notices (handlePriceBoardWebSocket .nil 7) = [(7, msg)] :=
  (rejected_message_no_service_call .nil 7).1 (Or.inl rfl)

/-- C7: a SUBSCRIBE event whose payload decodes with a non-zero base token and a zero
quote token draws exactly one notice, "Invalid quote token", to the calling connection
and no service call. -/
theorem subscribe_zero_quote (input : GoValue) (c : Client) (ev : WebsocketEvent)
    (p : SubscriptionPayload)
    (hdec : decodeEnvelope input = .ok (some ev)) (hty : ev.Typ = SUBSCRIBE)
    (hp : decodePayload ev = .ok (some p))
    (hbase : p.BaseToken ≠ Address.zero) (hquote : p.QuoteToken = Address.zero) :
    notices (handlePriceBoardWebSocket input c) = [(c, [("Message", "Invalid quote token")])] ∧
    serviceCalls (handlePriceBoardWebSocket input c) = [] := by
  rw [handle_payload_ok input c ev (some p) hdec (Or.inl hty) hp,
    subscribeBlock_some ev c p hty, if_neg hbase, if_pos hquote]
  exact ⟨rfl, rfl⟩

/-- C7 witness: SUBSCRIBE with base token A and the zero address as quote token. -/
theorem subscribe_zero_quote_witness :
    notices (handlePriceBoardWebSocket (envelope (.str SUBSCRIBE) (pairPayload hexA hexZero)) 7)
      = [(7, [("Message", "Invalid quote token")])] ∧
    serviceCalls
      (handlePriceBoardWebSocket (envelope (.str SUBSCRIBE) (pairPayload hexA hexZero)) 7) = [] :=
  subscribe_zero_quote (envelope (.str SUBSCRIBE) (pairPayload hexA hexZero)) 7
    ⟨SUBSCRIBE, pairPayload hexA hexZero⟩ ⟨tokenA, Address.zero⟩ rfl rfl rfl (by decide) rfl

/-- C8: a SUBSCRIBE event whose payload is present but does not decode into a
subscription payload draws exactly one notice, "Internal server error", to the calling
connection and no service call. -/
theorem subscribe_undecodable_payload (input : GoValue) (c : Client) (ev : WebsocketEvent)
    (err : DecodeError)
    (hdec : decodeEnvelope input = .ok (some ev)) (hty : ev.Typ = SUBSCRIBE)
    (hp : decodePayload ev = .error err) :
    notices (handlePriceBoardWebSocket input c)
      = [(c, [("Message", "Internal server error")])] ∧
    serviceCalls (handlePriceBoardWebSocket input c) = [] := by
  rw [handle_payload_error input c ev err hdec (Or.inl hty) hp]
  exact ⟨rfl, rfl⟩

/-- C8 witness: SUBSCRIBE whose base token is the malformed address text "0x12". -/
theorem subscribe_undecodable_payload_witness :
    notices (handlePriceBoardWebSocket (envelope (.str SUBSCRIBE) (pairPayload "0x12" hexB)) 7)
      = [(7, [("Message", "Internal server error")])] ∧
    serviceCalls
      (handlePriceBoardWebSocket (envelope (.str SUBSCRIBE) (pairPayload "0x12" hexB)) 7) = [] :=
  subscribe_undecodable_payload (envelope (.str SUBSCRIBE) (pairPayload "0x12" hexB)) 7
    ⟨SUBSCRIBE, pairPayload "0x12" hexB⟩ (.badHex "baseToken") rfl rfl rfl

/-- C9: one call of the handler performs at most one action visible outside the server,
a notice or a service call and never both, and that action names the calling
connection. -/
theorem at_most_one_visible_action (input : GoValue) (c : Client) :
    (notices (handlePriceBoardWebSocket input c)).length
        + (serviceCalls (handlePriceBoardWebSocket input c)).length ≤ 1 ∧
    (∀ n ∈ notices (handlePriceBoardWebSocket input c), n.1 = c) ∧
    (∀ e ∈ serviceCalls (handlePriceBoardWebSocket input c),
      (∃ b q, e = .Subscribe c b q) ∨ (∃ b q, e = .UnsubscribeChannel c b q) ∨
        e = .Unsubscribe c) := by
  rcases handle_shapes input c with
    ⟨err, h⟩ | ⟨t, h⟩ | ⟨err, h⟩ | h | h | h | ⟨b, q, h⟩ | ⟨b, q, h⟩ | h <;>
    rw [h] <;>
    simp [notices, serviceCalls, Effect.isServiceCall]

/-- C10: the body of every notice the handler sends is the single entry `Message` with one
of the four fixed texts; nothing in it comes from the input or from a decoder error. -/
theorem notice_texts_fixed (input : GoValue) (c : Client) :
    ∀ n ∈ notices (handlePriceBoardWebSocket input c),
      ∃ text ∈ ["Invalid payload", "Invalid base token", "Invalid quote token",
          "Internal server error"],
        n.2 = [("Message", text)] := by
  rcases handle_shapes input c with
    ⟨err, h⟩ | ⟨t, h⟩ | ⟨err, h⟩ | h | h | h | ⟨b, q, h⟩ | ⟨b, q, h⟩ | h <;>
    rw [h] <;>
    simp [notices, errInvalidPayload, msgInternal, msgInvalidBase, msgInvalidQuote]

/-- C10 witness: the notice drawn by a SUBSCRIBE with a zero base token carries one of the
four fixed texts. -/
theorem notice_texts_fixed_witness :
    ∃ text ∈ ["Invalid payload", "Invalid base token", "Invalid quote token",
        "Internal server error"],
      ((7, msgInvalidBase) : Client × Notice).2 = [("Message", text)] :=
  notice_texts_fixed (envelope (.str SUBSCRIBE) (pairPayload hexZero hexB)) 7
    (7, msgInvalidBase) (by decide)

/-- C14: a SUBSCRIBE event whose payload is absent or null, so that the decoded payload
pointer is nil, draws exactly one notice, "Invalid payload", to the calling connection
and no service call. -/
theorem subscribe_nil_payload (input : GoValue) (c : Client) (ev : WebsocketEvent)
    (hdec : decodeEnvelope input = .ok (some ev)) (hty : ev.Typ = SUBSCRIBE)
    (hnull : ev.Payload = .null) :
    decodePayload ev = .ok none ∧
    notices (handlePriceBoardWebSocket input c) = [(c, [("Message", "Invalid payload")])] ∧
    serviceCalls (handlePriceBoardWebSocket input c) = [] := by
  refine ⟨decodePayload_null ev hnull, ?_⟩
  rw [handle_payload_ok input c ev none hdec (Or.inl hty) (decodePayload_null ev hnull),
    subscribeBlock_nil ev c hty]
  exact ⟨rfl, rfl⟩

/-- C14 witness: a SUBSCRIBE envelope with no `payload` member at all. -/
theorem subscribe_nil_payload_witness :
    decodePayload ⟨SUBSCRIBE, .null⟩ = .ok none ∧
    notices (handlePriceBoardWebSocket (.encodes (.obj [("type", .str SUBSCRIBE)])) 7)
      = [(7, [("Message", "Invalid payload")])] ∧
    serviceCalls (handlePriceBoardWebSocket (.encodes (.obj [("type", .str SUBSCRIBE)])) 7)
      = [] :=
  subscribe_nil_payload (.encodes (.obj [("type", .str SUBSCRIBE)])) 7 ⟨SUBSCRIBE, .null⟩
    rfl rfl rfl

end PriceBoard

namespace Deposit

/-! ## Shared lemmas -/

/-- Writing a list of chunks appends their concatenation to what was written. -/
theorem foldl_write_written (params : List GoString) (sha : KeccakState) :
    (params.foldl (fun sha param => sha.Write param) sha).written
      = sha.written ++ params.flatten := by
  induction params generalizing sha with
  | nil => simp
  | cons param rest ih =>
    rw [List.foldl_cons, ih, List.flatten_cons]
    simp [KeccakState.Write]

/-- The bytes absorbed by `ComputeHash` are source, type and parameters laid end to end. -/
theorem hashState_written (o : AssociationTransaction) :
    (hashState o).written = o.Source ++ o.TransactionType ++ o.Params.flatten := by
  unfold hashState
  rw [foldl_write_written]
  simp [KeccakState.Write, NewKeccak256]

/-- The digest returned is the digest of the absorbed bytes. -/
theorem computeHash_eq (keccak256 : List Byte → List Byte) (o : AssociationTransaction) :
    (o.ComputeHash keccak256).2 = keccak256 (hashState o).written := by
  simp [AssociationTransaction.ComputeHash, KeccakState.Sum]

/-- Concatenation after one chunk has been replaced. -/
theorem flatten_set (params : List GoString) (i : Nat) (s : GoString)
    (hi : i < params.length) :
    (params.set i s).flatten
      = (params.take i).flatten ++ s ++ (params.drop (i + 1)).flatten ∧
    params.flatten
      = (params.take i).flatten ++ params[i] ++ (params.drop (i + 1)).flatten := by
  induction params generalizing i with
  | nil => simp at hi
  | cons x rest ih =>
    cases i with
    | zero => simp
    | succ j =>
      have hj : j < rest.length := by simpa using hi
      obtain ⟨h1, h2⟩ := ih j hj
      constructor
      · simp only [List.set_cons_succ, List.flatten_cons, List.take_succ_cons,
          List.drop_succ_cons, h1, List.append_assoc]
      · simp only [List.flatten_cons, List.take_succ_cons, List.drop_succ_cons,
          List.getElem_cons_succ, List.append_assoc]
        rw [h2]
        simp only [List.append_assoc]

/-- Cropping leaves at most twenty bytes. -/
theorem cropLeft_length (b : List Byte) : (cropLeft b).length ≤ 20 := by
  unfold cropLeft
  split
  · rw [List.length_drop]
    omega
  · omega

/-- The address made from a byte slice is the slice right-aligned in twenty bytes. -/
theorem bytesToAddress_val (b : List Byte) : (BytesToAddress b).val = rightAligned b := by
  show List.take (20 - (cropLeft b).length) (List.replicate 20 0) ++ cropLeft b = rightAligned b
  unfold rightAligned cropLeft
  by_cases h : 20 < b.length
  · have h2 : ¬ b.length ≤ 20 := by omega
    rw [if_pos h, if_neg h2, List.length_drop]
    have h3 : 20 - (b.length - (b.length - 20)) = 0 := by omega
    rw [h3, List.take_zero, List.nil_append]
  · have h2 : b.length ≤ 20 := by omega
    rw [if_neg h, if_pos h2, List.take_replicate]
    have h3 : min (20 - b.length) 20 = 20 - b.length := by omega
    rw [h3]

/-! ## Claims -/

/-- C11: the digest `ComputeHash` returns is the Keccak-256 digest of the bytes of Source,
then of TransactionType, then of each parameter in list order; two transactions that
agree on these three fields get the same digest whatever their Signature and Hash hold;
and the call leaves the transaction as it was. -/
theorem computeHash_digest (keccak256 : List Byte → List Byte) (o : AssociationTransaction) :
    (o.ComputeHash keccak256).2
      = keccak256 (o.Source ++ o.TransactionType ++ o.Params.flatten) ∧
    (∀ sig hash : List Byte,
      (AssociationTransaction.ComputeHash keccak256
          { o with Signature := sig, Hash := hash }).2
        = (o.ComputeHash keccak256).2) ∧
    (o.ComputeHash keccak256).1 = o := by
  refine ⟨?_, ?_, rfl⟩
  · rw [computeHash_eq, hashState_written]
  · intro sig hash
    rw [computeHash_eq, computeHash_eq, hashState_written, hashState_written]

/-- C12: replacing one parameter by a different string, everything else unchanged, changes
the byte sequence fed to Keccak-256; hence the digest changes whenever Keccak-256 does
not collide on those two sequences. -/
theorem computeHash_param_change (keccak256 : List Byte → List Byte)
    (o : AssociationTransaction) (i : Nat) (s : GoString)
    (hi : i < o.Params.length) (hs : s ≠ o.Params[i]) :
    (hashState { o with Params := o.Params.set i s }).written ≠ (hashState o).written ∧
    ((keccak256 (hashState { o with Params := o.Params.set i s }).written
          = keccak256 (hashState o).written →
        (hashState { o with Params := o.Params.set i s }).written = (hashState o).written) →
      (AssociationTransaction.ComputeHash keccak256 { o with Params := o.Params.set i s }).2
        ≠ (o.ComputeHash keccak256).2) := by
  have hne : (hashState { o with Params := o.Params.set i s }).written
      ≠ (hashState o).written := by
    rw [hashState_written, hashState_written]
    obtain ⟨h1, h2⟩ := flatten_set o.Params i s hi
    intro heq
    have heq2 : (o.Params.set i s).flatten = o.Params.flatten :=
      List.append_cancel_left heq
    rw [h1, h2] at heq2
    have heq3 := List.append_cancel_right heq2
    exact hs (List.append_cancel_left heq3)
  refine ⟨hne, ?_⟩
  intro hinj hd
  rw [computeHash_eq, computeHash_eq] at hd
  exact hne (hinj hd)

/-- C12 witness: the second parameter "yz" of the sample transaction replaced by "q", under
a digest that returns its input. -/
theorem computeHash_param_change_witness :
    (hashState { sampleTx with Params := sampleTx.Params.set 1 (literal "q") }).written
      ≠ (hashState sampleTx).written ∧
    (AssociationTransaction.ComputeHash (fun b => b)
        { sampleTx with Params := sampleTx.Params.set 1 (literal "q") }).2
      ≠ (sampleTx.ComputeHash (fun b => b)).2 :=
  have h := computeHash_param_change (fun b => b) sampleTx 1 (literal "q")
    (by decide) (by decide)
  ⟨h.1, h.2 (fun e => e)⟩

/-- C13: `ComputeHash` depends on nothing but the concatenation of source, type and
parameters: transactions with equal concatenations get equal digests, and so do the
different transactions with source "ab", type "c" and with source "a", type "bc", and
those with parameters ["ab", "c"], ["a", "bc"] and ["abc"]. -/
theorem computeHash_concatenation_only (keccak256 : List Byte → List Byte) :
    (∀ o1 o2 : AssociationTransaction, concatenation o1 = concatenation o2 →
      (o1.ComputeHash keccak256).2 = (o2.ComputeHash keccak256).2) ∧
    ((⟨literal "ab", [], [], literal "c", []⟩ : AssociationTransaction)
        ≠ ⟨literal "a", [], [], literal "bc", []⟩ ∧
      (AssociationTransaction.ComputeHash keccak256
          ⟨literal "ab", [], [], literal "c", []⟩).2
        = (AssociationTransaction.ComputeHash keccak256
          ⟨literal "a", [], [], literal "bc", []⟩).2) ∧
    ((⟨[], [], [], [], [literal "ab", literal "c"]⟩ : AssociationTransaction)
        ≠ ⟨[], [], [], [], [literal "a", literal "bc"]⟩ ∧
      (⟨[], [], [], [], [literal "a", literal "bc"]⟩ : AssociationTransaction)
        ≠ ⟨[], [], [], [], [literal "abc"]⟩ ∧
      (AssociationTransaction.ComputeHash keccak256
          ⟨[], [], [], [], [literal "ab", literal "c"]⟩).2
        = (AssociationTransaction.ComputeHash keccak256
          ⟨[], [], [], [], [literal "a", literal "bc"]⟩).2 ∧
      (AssociationTransaction.ComputeHash keccak256
          ⟨[], [], [], [], [literal "a", literal "bc"]⟩).2
        = (AssociationTransaction.ComputeHash keccak256
          ⟨[], [], [], [], [literal "abc"]⟩).2) := by
  have main : ∀ o1 o2 : AssociationTransaction, concatenation o1 = concatenation o2 →
      (o1.ComputeHash keccak256).2 = (o2.ComputeHash keccak256).2 := by
    intro o1 o2 h
    rw [computeHash_eq, computeHash_eq, hashState_written, hashState_written]
    exact congrArg keccak256 h
  refine ⟨main, ⟨by decide, main _ _ (by decide)⟩,
    by decide, by decide, main _ _ (by decide), main _ _ (by decide)⟩

/-- C13 witness: the sample transaction and the one that carries all of its bytes in the
source have the same digest. -/
theorem computeHash_concatenation_only_witness :
    (sampleTx.ComputeHash (fun b => b)).2
      = (AssociationTransaction.ComputeHash (fun b => b)
          ⟨literal "abcxyz", [], [], [], []⟩).2 :=
  (computeHash_concatenation_only (fun b => b)).1 sampleTx
    ⟨literal "abcxyz", [], [], [], []⟩ (by decide)

/-- C15: `NewChain` always returns a chain: the bytes of a byte-slice argument as they are
(the empty chain for the empty slice), and `ChainEthereum` for an argument of any other
dynamic type; `Chain.Scan` returns an error exactly when its argument is not a byte
slice, and then the receiver is as it was. -/
theorem newChain_total :
    (∀ b : List Byte, NewChain (.byteSlice b) = b) ∧
    NewChain (.byteSlice []) = [] ∧
    (∀ src : Dynamic, (∀ b, src ≠ .byteSlice b) → NewChain src = ChainEthereum) ∧
    NewChain .nil = literal "ethereum" ∧
    NewChain (.string (literal "bitcoin")) = literal "ethereum" ∧
    (∀ n : Int, NewChain (.int n) = literal "ethereum") ∧
    (∀ (s : Chain) (src : Dynamic),
      ((Chain.Scan s src).2 ≠ none ↔ ∀ b, src ≠ .byteSlice b) ∧
      ((Chain.Scan s src).2 ≠ none → (Chain.Scan s src).1 = s) ∧
      (∀ b, src = .byteSlice b → Chain.Scan s src = (b, none))) := by
  refine ⟨fun b => rfl, rfl, ?_, rfl, rfl, fun n => rfl, ?_⟩
  · intro src h
    cases src with
    | byteSlice b => exact absurd rfl (h b)
    | nil => rfl
    | string v => rfl
    | int v => rfl
    | other k => rfl
  · intro s src
    cases src with
    | byteSlice b =>
      refine ⟨?_, ?_, ?_⟩
      · constructor
        · intro h
          exact absurd rfl h
        · intro h
          exact absurd rfl (h b)
      · intro h
        exact absurd rfl h
      · intro b2 h
        cases h
        rfl
    | nil => simp [Chain.Scan]
    | string v => simp [Chain.Scan]
    | int v => simp [Chain.Scan]
    | other k => simp [Chain.Scan]

/-- C15 witness: scanning the Go string "bitcoin" into the chain "tomo" fails and leaves
"tomo". -/
theorem newChain_total_witness :
    (Chain.Scan (literal "tomo") (.string (literal "bitcoin"))).1 = literal "tomo" :=
  ((newChain_total.2.2.2.2.2.2 (literal "tomo") (.string (literal "bitcoin"))).2.1)
    (by decide)

/-- C16: `GetJSON` on a feed returns a nil error and an association with the feed's Chain
and AddressIndex, with the three addresses right-aligned in twenty bytes from the feed's
byte fields, and with CreatedAt the instant that many seconds from the Unix epoch, the
count being read as a signed 64-bit number; the feed is left as it was. -/
theorem feed_getJSON (f : AddressAssociationFeed) (hcreated : f.CreatedAt < 2 ^ 64) :
    f.GetJSON.2.2 = none ∧
    f.GetJSON.2.1.Chain = f.Chain ∧
    f.GetJSON.2.1.AddressIndex = f.AddressIndex ∧
    f.GetJSON.2.1.Address.val = rightAligned f.Address ∧
    f.GetJSON.2.1.AssociatedAddress.val = rightAligned f.AssociatedAddress ∧
    f.GetJSON.2.1.TomochainPublicKey.val = rightAligned f.TomochainPublicKey ∧
    f.GetJSON.2.1.CreatedAt
      = ⟨if f.CreatedAt < 2 ^ 63 then (f.CreatedAt : Int) else (f.CreatedAt : Int) - 2 ^ 64, 0⟩ ∧
    f.GetJSON.1 = f := by
  refine ⟨rfl, rfl, rfl, bytesToAddress_val _, bytesToAddress_val _, bytesToAddress_val _,
    ?_, rfl⟩
  show timeUnix (int64 f.CreatedAt) 0 = _
  have hmod : f.CreatedAt % 2 ^ 64 = f.CreatedAt := Nat.mod_eq_of_lt hcreated
  unfold timeUnix int64
  rw [hmod]

/-- C16 witness: the sample feed, with a two-byte address, a twenty-two-byte associated
address, an empty public key and the creation time `2 ^ 64 - 1`. -/
theorem feed_getJSON_witness :
    sampleFeed.GetJSON.2.2 = none ∧
    sampleFeed.GetJSON.2.1.Chain = literal "bitcoin" ∧
    sampleFeed.GetJSON.2.1.AddressIndex = 5 ∧
    sampleFeed.GetJSON.2.1.Address.val = List.replicate 18 0 ++ [0xa1, 0xb2] ∧
    sampleFeed.GetJSON.2.1.AssociatedAddress.val = List.replicate 19 7 ++ [9] ∧
    sampleFeed.GetJSON.2.1.TomochainPublicKey.val = List.replicate 20 0 ∧
    sampleFeed.GetJSON.2.1.CreatedAt = ⟨-1, 0⟩ ∧
    sampleFeed.GetJSON.1 = sampleFeed :=
  have h := feed_getJSON sampleFeed (by decide)
  ⟨h.1, h.2.1, h.2.2.1, h.2.2.2.1.trans (by decide), h.2.2.2.2.1.trans (by decide),
    h.2.2.2.2.2.1.trans (by decide), h.2.2.2.2.2.2.1.trans (by decide), h.2.2.2.2.2.2.2⟩

end Deposit
